import Mathlib

/-!
Verification of the SillyTavern "Bookmark" extension (bookmark manager).

The development shallowly embeds the extension's bookmark store, the
persistent bookmark index, the legacy-data migrator, the import engine
and the bulk eraser.  JavaScript objects used as string-keyed maps are
embedded as association lists (`StrMap`); `delete obj[k]` removes the
key, assignment `obj[k] = v` replaces the value in place or appends.
Mutable module state (`bookmarks`, `context.chatMetadata`,
`extension_settings[pluginName].bookmarkIndex`, `localStorage`) is
threaded explicitly through a `Store` record.  `uuidv4()` is embedded
as an abstract id supply `gen : Nat -> String` together with a call
counter; `new Date().toISOString()` as an explicit timestamp argument.
JavaScript `Array.prototype.sort` with comparator
`(a, b) => a.messageId - b.messageId` is a stable ascending sort by
`messageId`; it is embedded as `List.insertionSort`, which is stable
and therefore produces the identical list.
-/

namespace BookmarkExt

/-- Association-list embedding of a JavaScript object used as a
string-keyed dictionary. -/
def StrMap (β : Type) : Type := List (String × β)

instance (β : Type) [DecidableEq β] : DecidableEq (StrMap β) :=
  inferInstanceAs (DecidableEq (List (String × β)))

namespace StrMap

/-- Property read `obj[k]`: the value at the first occurrence of `k`. -/
def find? {β : Type} (m : StrMap β) (k : String) : Option β :=
  match m with
  | [] => none
  | (k', v) :: rest => if k' = k then some v else find? rest k

/-- Assignment `obj[k] = v`: replace in place if the key exists,
otherwise append. -/
def set {β : Type} (m : StrMap β) (k : String) (v : β) : StrMap β :=
  match m with
  | [] => [(k, v)]
  | (k', v') :: rest => if k' = k then (k, v) :: rest else (k', v') :: set rest k v

/-- `delete obj[k]`: the key is gone afterwards. -/
def erase {β : Type} (m : StrMap β) (k : String) : StrMap β :=
  match m with
  | [] => []
  | (k', v') :: rest => if k' = k then erase rest k else (k', v') :: erase rest k

/-- `Object.keys(obj).length === 0`. -/
def isEmpty {β : Type} (m : StrMap β) : Bool :=
  match m with
  | [] => true
  | _ :: _ => false

theorem find?_set_self {β : Type} (m : StrMap β) (k : String) (v : β) :
    (m.set k v).find? k = some v := by
  induction m with
  | nil => simp [set, find?]
  | cons p rest ih =>
    obtain ⟨k', v'⟩ := p
    by_cases h : k' = k
    · simp [set, h, find?]
    · simp [set, h, find?, ih]

theorem find?_set_ne {β : Type} (m : StrMap β) (k k' : String) (v : β)
    (h : k' ≠ k) : (m.set k v).find? k' = m.find? k' := by
  induction m with
  | nil => simp [set, find?, Ne.symm h]
  | cons p rest ih =>
    obtain ⟨k₀, v₀⟩ := p
    by_cases h₀ : k₀ = k
    · subst h₀
      simp [set, find?, Ne.symm h]
    · simp [set, h₀, find?, ih]

theorem find?_erase_self {β : Type} (m : StrMap β) (k : String) :
    (m.erase k).find? k = none := by
  induction m with
  | nil => simp [erase, find?]
  | cons p rest ih =>
    obtain ⟨k₀, v₀⟩ := p
    by_cases h : k₀ = k
    · simpa [erase, h] using ih
    · simpa [erase, h, find?] using ih

theorem find?_erase_ne {β : Type} (m : StrMap β) (k k' : String)
    (h : k' ≠ k) : (m.erase k).find? k' = m.find? k' := by
  induction m with
  | nil => simp [erase, find?]
  | cons p rest ih =>
    obtain ⟨k₀, v₀⟩ := p
    by_cases h₀ : k₀ = k
    · subst h₀
      simp [erase, find?, Ne.symm h, ih]
    · simp [erase, h₀, find?, ih]

/-- If every key other than `k` is absent, deleting `k` empties the map. -/
theorem erase_eq_nil_of_only_key {β : Type} (m : StrMap β) (k : String)
    (h : ∀ k', k' ≠ k → m.find? k' = none) : m.erase k = [] := by
  induction m with
  | nil => rfl
  | cons p rest ih =>
    obtain ⟨k₀, v₀⟩ := p
    by_cases h₀ : k₀ = k
    · simp only [erase, h₀, if_pos rfl]
      exact ih (fun k' hk' => by
        have := h k' hk'
        by_cases hh : k₀ = k'
        · exact absurd (h₀ ▸ hh.symm) hk'
        · simpa [find?, hh] using this)
    · exfalso
      have := h k₀ h₀
      simp [find?] at this

end StrMap

/-- A bookmark record, as built by `addBookmark` / the import merges:
`{ id: uuidv4(), messageId: parseInt(messageId), name, description,
createdAt: new Date().toISOString() }`. -/
structure Bookmark where
  id : String
  messageId : Int
  name : String
  description : String
  createdAt : String
deriving DecidableEq

/-- The value stored under the reserved chat-metadata key
`bookmarks_v2`: absent, present-but-not-an-array (`junk` stands for any
truthy non-array value), or an array of bookmark records. -/
inductive MetaSlot
  | absent
  | junk
  | list (bs : List Bookmark)
deriving DecidableEq

/-- Result of `JSON.parse(localStorage.getItem('st_bookmarks'))`:
`malformed` = the stored string is not valid JSON (parse throws),
`notArray` = parses but is not an array, `arr` = parses as an array. -/
inductive LegacyPayload
  | malformed
  | notArray
  | arr (bs : List Bookmark)
deriving DecidableEq

/-- A loaded character as the code uses it; an entry failing the
`!character || !character.name || !character.avatar` test is modelled
as `none` in the character list. -/
structure Character where
  name : String
  avatar : String
deriving DecidableEq

/-- One entry of the bookmark index:
`{ count: bookmarkCount, lastUpdated: new Date().toISOString() }`. -/
structure IndexEntry where
  count : Int
  lastUpdated : String
deriving DecidableEq

/-- `extension_settings[pluginName].bookmarkIndex`:
`{ [characterId]: { [chatId]: IndexEntry } }`. -/
def BookmarkIndex : Type := StrMap (StrMap IndexEntry)

instance : DecidableEq BookmarkIndex :=
  inferInstanceAs (DecidableEq (StrMap (StrMap IndexEntry)))

/-- The parts of `getContext()` the bookmark code reads.  A missing
context or missing `chatMetadata` is modelled as `Store.ctx = none`. -/
structure Ctx where
  characterId : Option Int
  chatId : Option String
  characters : List (Option Character)
  chatMetadata : MetaSlot
deriving DecidableEq

/-- The mutable state the extension touches: the `localStorage`
migration flag and legacy blob, the host context (with the reserved
chat-metadata key), the in-memory `bookmarks` array, and the persisted
bookmark index. -/
structure Store where
  migrationCompleted : Bool
  legacy : Option LegacyPayload
  ctx : Option Ctx
  bookmarks : List Bookmark
  index : BookmarkIndex
deriving DecidableEq

/-- Comparator `(a, b) => a.messageId - b.messageId`: ascending order
by `messageId`. -/
def bmLE (a b : Bookmark) : Prop := a.messageId ≤ b.messageId

instance : DecidableRel bmLE :=
  fun a b => inferInstanceAs (Decidable (a.messageId ≤ b.messageId))

instance : IsTotal Bookmark bmLE := ⟨fun a b => le_total a.messageId b.messageId⟩

instance : IsTrans Bookmark bmLE := ⟨fun _ _ _ h₁ h₂ => le_trans h₁ h₂⟩

/-- `bookmarks.sort((a, b) => a.messageId - b.messageId)`.  JavaScript
`sort` is stable; `insertionSort` is the stable ascending sort, so they
produce the same list. -/
def sortByMessageId (l : List Bookmark) : List Bookmark :=
  List.insertionSort bmLE l

/-- `characterId.toString()`, the character key of the index. -/
def charKey (cid : Int) : String := toString cid

/-- `updateBookmarkIndex(characterId, chatId, bookmarkCount)`
(part_001 lines 71-103): no-op when either id is `undefined`; upsert
the entry when `bookmarkCount > 0`; otherwise delete the chat entry
and, when the character's chat map becomes empty, the character key. -/
def updateBookmarkIndex (now : String) (idx : BookmarkIndex)
    (characterId : Option Int) (chatId : Option String)
    (bookmarkCount : Int) : BookmarkIndex :=
  match characterId, chatId with
  | some cid, some chid =>
      let ck := charKey cid
      let charMap := (idx.find? ck).getD []
      if 0 < bookmarkCount then
        idx.set ck (charMap.set chid ⟨bookmarkCount, now⟩)
      else
        let m := charMap.erase chid
        if m.isEmpty then idx.erase ck else idx.set ck m
  | _, _ => idx

/-- Convenience: the index entry at `(characterId, chatId)`. -/
def indexFind (idx : BookmarkIndex) (cid : Int) (chid : String) :
    Option IndexEntry :=
  (idx.find? (charKey cid)).bind (fun m => m.find? chid)

/-- `saveBookmarks()` (part_001 lines 402-423): no-op without
context/metadata; otherwise store a copy of the in-memory list under
the reserved metadata key and update the index for the active chat
with the new count. -/
def saveBookmarks (now : String) (s : Store) : Store :=
  match s.ctx with
  | none => s
  | some c =>
      { s with
        ctx := some { c with chatMetadata := MetaSlot.list s.bookmarks },
        index := updateBookmarkIndex now s.index c.characterId c.chatId
          (s.bookmarks.length : Int) }

/-- The migration's emptiness test of the destination:
`!existingBookmarks || !Array.isArray(existingBookmarks) ||
existingBookmarks.length === 0`. -/
def metaSlotVacant : MetaSlot → Bool
  | .absent => true
  | .junk => true
  | .list ex => ex.isEmpty

/-- `migrateOldBookmarks()` (src/index.js lines 56-100).  A parse
failure of the legacy blob is caught and leaves every piece of state
unchanged; in all other branches the completion flag is set, and the
legacy array is copied into the current chat's metadata only when that
metadata has no bookmark array (or an empty or non-array value) of its
own.  The legacy blob itself is never written. -/
def migrateOldBookmarks (s : Store) : Store :=
  if s.migrationCompleted then s
  else
    match s.legacy with
    | none => { s with migrationCompleted := true }
    | some .malformed => s
    | some .notArray => { s with migrationCompleted := true }
    | some (.arr bs) =>
        if bs.isEmpty then { s with migrationCompleted := true }
        else
          match s.ctx with
          | none => { s with migrationCompleted := true }
          | some c =>
              if metaSlotVacant c.chatMetadata then
                { s with
                  ctx := some { c with chatMetadata := MetaSlot.list bs },
                  migrationCompleted := true }
              else { s with migrationCompleted := true }

/-- `loadBookmarks()` (src/index.js lines 105-142): reset the list
without context; otherwise run the migration once, then set the
in-memory list to the stored array when one exists, else to `[]`. -/
def loadBookmarks (s : Store) : Store :=
  match s.ctx with
  | none => { s with bookmarks := [] }
  | some _ =>
      match (migrateOldBookmarks s).ctx with
      | none => { migrateOldBookmarks s with bookmarks := [] }
      | some c =>
          match c.chatMetadata with
          | .list bs => { migrateOldBookmarks s with bookmarks := bs }
          | _ => { migrateOldBookmarks s with bookmarks := [] }

/-- The record `addBookmark` constructs; `gen c` is the value of the
`c`-th `uuidv4()` call. -/
def mkBookmark (gen : Nat → String) (c : Nat) (now : String)
    (messageId : Int) (name description : String) : Bookmark :=
  { id := gen c, messageId := messageId, name := name,
    description := description, createdAt := now }

/-- `addBookmark(messageId, name, description)` (src/index.js lines
302-322): push a fresh record, re-sort by `messageId`, save.  No
uniqueness check of any kind is performed. -/
def addBookmark (gen : Nat → String) (now : String) (messageId : Int)
    (name description : String) (s : Store) (c : Nat) : Store × Nat :=
  let b := mkBookmark gen c now messageId name description
  (saveBookmarks now
    { s with bookmarks := sortByMessageId (s.bookmarks ++ [b]) }, c + 1)

/-- The in-place update done by `editBookmark`: the first record with
the given id gets the new `name`/`description`; everything else,
including `messageId` and `createdAt`, is untouched. -/
def editList (bookmarkId name description : String) :
    List Bookmark → List Bookmark
  | [] => []
  | b :: rest =>
      if b.id = bookmarkId then
        { b with name := name, description := description } :: rest
      else b :: editList bookmarkId name description rest

/-- `editBookmark(bookmarkId, name, description)` (src/index.js lines
327-334): no-op when the id is absent, else update and save. -/
def editBookmark (now bookmarkId name description : String) (s : Store) :
    Store :=
  if s.bookmarks.any (fun b => b.id = bookmarkId) then
    saveBookmarks now
      { s with bookmarks := editList bookmarkId name description s.bookmarks }
  else s

/-- `bookmarks.splice(index, 1)` at the first record with the id. -/
def removeFirst (bookmarkId : String) : List Bookmark → List Bookmark
  | [] => []
  | b :: rest =>
      if b.id = bookmarkId then rest else b :: removeFirst bookmarkId rest

/-- `deleteBookmark(bookmarkId)` (src/index.js lines 339-345): no-op
when the id is absent, else remove the record and save. -/
def deleteBookmark (now bookmarkId : String) (s : Store) : Store :=
  if s.bookmarks.any (fun b => b.id = bookmarkId) then
    saveBookmarks now { s with bookmarks := removeFirst bookmarkId s.bookmarks }
  else s

/-- One user-level mutation of the current chat's list. -/
inductive BmOp
  | add (messageId : Int) (name description : String)
  | edit (bookmarkId name description : String)
  | remove (bookmarkId : String)

/-- Run one operation; `gen` supplies uuids, `now` the timestamp of
each uuid counter position. -/
def applyOp (gen : Nat → String) (now : Nat → String) :
    Store × Nat → BmOp → Store × Nat
  | (s, c), .add m n d => addBookmark gen (now c) m n d s c
  | (s, c), .edit i n d => (editBookmark (now c) i n d s, c)
  | (s, c), .remove i => (deleteBookmark (now c) i s, c)

/-- Run a sequence of add/edit/remove operations. -/
def applyOps (gen : Nat → String) (now : Nat → String) (ops : List BmOp)
    (sc : Store × Nat) : Store × Nat :=
  ops.foldl (applyOp gen now) sc

/-! ## Import engine -/

/-- Accumulator of the shared merge loop: the destination list built
so far (existing records plus the ones merged this pass), the uuid
counter, and the two counters the loops keep. -/
structure MergeAcc where
  merged : List Bookmark
  counter : Nat
  imported : Nat
  duplicated : Nat
deriving DecidableEq

/-- One iteration of the merge loop every import path uses: a record
whose `(messageId, name)` pair already occurs in the destination (the
existing records plus those merged earlier this pass) is counted as a
duplicate and skipped; otherwise it is appended with a fresh id. -/
def mergeStep (gen : Nat → String) (acc : MergeAcc) (ib : Bookmark) :
    MergeAcc :=
  if acc.merged.any (fun e => e.messageId == ib.messageId && e.name == ib.name) then
    { acc with duplicated := acc.duplicated + 1 }
  else
    { acc with
      merged := acc.merged ++ [{ ib with id := gen acc.counter }],
      counter := acc.counter + 1,
      imported := acc.imported + 1 }

/-- The whole merge loop over the incoming records. -/
def mergeIntoList (gen : Nat → String) (c : Nat)
    (incoming existing : List Bookmark) : MergeAcc :=
  incoming.foldl (mergeStep gen) ⟨existing, c, 0, 0⟩

/-- What `importLegacyBookmarks` returns, along with the threaded
state. -/
structure LegacyImportOut where
  store : Store
  counter : Nat
  importedCount : Nat
  duplicatedCount : Nat
deriving DecidableEq

/-- `importLegacyBookmarks(legacyBookmarks)` (src/index.js lines
990-1020): merge the payload into the current in-memory list by
`(messageId, name)`, re-sort, save, and report the two counters. -/
def importLegacyBookmarks (gen : Nat → String) (now : String)
    (legacyBookmarks : List Bookmark) (s : Store) (c : Nat) :
    LegacyImportOut :=
  let acc := mergeIntoList gen c legacyBookmarks s.bookmarks
  { store := saveBookmarks now { s with bookmarks := sortByMessageId acc.merged },
    counter := acc.counter,
    importedCount := acc.imported,
    duplicatedCount := acc.duplicated }

/-- Shape of one top-level field of a parsed import payload:
`undefined` (or another falsy value), a truthy non-array value, or an
array. -/
inductive JsField
  | missing
  | nonArray
  | arr
deriving DecidableEq

/-- `field && Array.isArray(field)`. -/
def isTruthyArray : JsField → Bool
  | .arr => true
  | _ => false

/-- The shape of `JSON.parse(file)` as far as format detection reads
it. -/
structure ImportData where
  version : Option String
  bookmarks : JsField
  chatBookmarks : JsField
  characterBookmarks : JsField
deriving DecidableEq

/-- The four branches of `importBookmarkData`'s dispatch. -/
inductive ImportFormat
  | legacy
  | v2
  | v3
  | unsupported
deriving DecidableEq

/-- The format dispatch of `importBookmarkData` (src/index.js lines
1450-1512), in source order: the v1 branch fires when `bookmarks` is a
(truthy) array and `version !== '2.0'`; the v2 branch when
`version === '2.0'` with a `chatBookmarks` array; the v3 branch when
`version === '3.0'` with a `characterBookmarks` array. -/
def detectFormat (d : ImportData) : ImportFormat :=
  if isTruthyArray d.bookmarks ∧ d.version ≠ some "2.0" then .legacy
  else if d.version = some "2.0" ∧ isTruthyArray d.chatBookmarks then .v2
  else if d.version = some "3.0" ∧ isTruthyArray d.characterBookmarks then .v3
  else .unsupported

/-- Outcome of one `/api/chats/get` call, as far as the code reads it:
a non-ok response, an ok response whose body is not a non-empty array,
one whose first element is not an object, or the extracted metadata
(`firstItem.chat_metadata || firstItem`) projected to the reserved
bookmark key. -/
inductive FetchResult
  | fail
  | notArrayOrEmpty
  | firstNotObject
  | chat (slot : MetaSlot)
deriving DecidableEq

/-- The external chat storage: `fetchChat` is the first
`/api/chats/get` for a chat, `saveOk` the success of
`/api/chats/save`, and `verifyChat` the re-read that the verification
step performs after a save (the store may have changed in between;
that is exactly the lossy-write situation).  Both are keyed by
`(ch_name, file_name)`. -/
structure RemoteEnv where
  fetchChat : String → String → FetchResult
  saveOk : String → String → Bool
  verifyChat : String → String → FetchResult

/-- `fileName.replace('.jsonl', '')`. -/
def stripJsonl (fileName : String) : String :=
  fileName.replace ".jsonl" ""

/-- The bookmark count a re-read of a chat observes (the
`verifyBookmarks.length` of the verification step, with
`chatMetadata[KEY] || []`). -/
def fetchedBookmarkCount : FetchResult → Nat
  | .chat (.list bs) => bs.length
  | _ => 0

/-- One chat group of a v3 payload (`chatBookmarks` entries have the
same shape). -/
structure V3Chat where
  chatName : String
  fileName : String
  bookmarks : List Bookmark
deriving DecidableEq

/-- One character group of a v3 payload. -/
structure V3CharGroup where
  characterName : String
  chats : List V3Chat
deriving DecidableEq

/-- What `importV3ToOriginalLocations` returns. -/
structure V3Result where
  processedCharacters : Nat
  processedChats : Nat
  totalImported : Nat
  notFoundCharacters : List String
deriving DecidableEq

/-- State threaded through the v3 import loops. -/
structure V3Acc where
  store : Store
  counter : Nat
  processedCharacters : Nat
  processedChats : Nat
  totalImported : Nat
  notFoundCharacters : List String
deriving DecidableEq

/-- `context.characters.find(char => char && char.name === name)`,
returning the index `indexOf` then yields. -/
def findCharacterIdx (characters : List (Option Character))
    (name : String) : Option Nat :=
  characters.findIdx? (fun oc =>
    match oc with
    | some ch => ch.name == name
    | none => false)

/-- One chat of one resolved character in the v3 import (src/index.js
lines 1059-1239).  The current chat is merged in memory and saved;
other chats are fetched, merged, and written back.  A failed fetch
skips the chat; a failed write or a count mismatch in the verification
re-read is only logged, so neither affects the returned counters
(`processedChats` is incremented after the save attempt regardless).
A truthy non-array value under the bookmark key makes the
`[...existingBookmarks]` spread throw, which the per-chat catch turns
into a skip. -/
def v3ProcessChat (gen : Nat → String) (now : String) (env : RemoteEnv)
    (charIdx : Nat) (char : Character) (cid? : Option Int)
    (chid? : Option String) (acc : V3Acc) (cd : V3Chat) : V3Acc :=
  if some (charIdx : Int) = cid? ∧ some cd.fileName = chid? then
    let m := mergeIntoList gen acc.counter cd.bookmarks acc.store.bookmarks
    { acc with
      store := saveBookmarks now
        { acc.store with bookmarks := sortByMessageId m.merged },
      counter := m.counter,
      processedChats := acc.processedChats + 1,
      totalImported := acc.totalImported + m.imported }
  else
    match env.fetchChat char.name (stripJsonl cd.fileName) with
    | .fail => acc
    | .chat .junk => acc
    | r =>
        let existing : List Bookmark :=
          match r with
          | .chat (.list bs) => bs
          | _ => []
        let m := mergeIntoList gen acc.counter cd.bookmarks existing
        { acc with
          counter := m.counter,
          processedChats := acc.processedChats + 1,
          totalImported := acc.totalImported + m.imported }

/-- One character group of the v3 import: unresolvable names are
collected into `notFoundCharacters`; resolved ones have their chats
processed in order and bump `processedCharacters`. -/
def v3ProcessChar (gen : Nat → String) (now : String) (env : RemoteEnv)
    (characters : List (Option Character)) (cid? : Option Int)
    (chid? : Option String) (acc : V3Acc) (cg : V3CharGroup) : V3Acc :=
  match findCharacterIdx characters cg.characterName with
  | none =>
      { acc with
        notFoundCharacters := acc.notFoundCharacters ++ [cg.characterName] }
  | some idx =>
      match (characters.get? idx).bind id with
      | none =>
          { acc with
            notFoundCharacters := acc.notFoundCharacters ++ [cg.characterName] }
      | some ch =>
          let acc' := cg.chats.foldl
            (v3ProcessChat gen now env idx ch cid? chid?) acc
          { acc' with processedCharacters := acc'.processedCharacters + 1 }

/-- `importV3ToOriginalLocations(characterBookmarks)` (src/index.js
lines 1027-1262).  Throws (`.error`) only when the context or its
character list is unavailable; every per-chat and per-character
failure, including a write whose verification re-read disagrees with
the expected merged count, is logged and absorbed. -/
def importV3ToOriginalLocations (gen : Nat → String) (now : String)
    (env : RemoteEnv) (characterBookmarks : List V3CharGroup)
    (s : Store) (c : Nat) : Except String (Store × Nat × V3Result) :=
  match s.ctx with
  | none => .error "character list not found"
  | some ctx =>
      let acc0 : V3Acc := ⟨s, c, 0, 0, 0, []⟩
      let acc := characterBookmarks.foldl
        (v3ProcessChar gen now env ctx.characters ctx.characterId ctx.chatId)
        acc0
      .ok (acc.store, acc.counter,
        ⟨acc.processedCharacters, acc.processedChats, acc.totalImported,
          acc.notFoundCharacters⟩)

/-! ## Bulk eraser -/

/-- Truthiness of the value under the reserved bookmark key
(`if (chatMetadata[BOOKMARK_METADATA_KEY])`); arrays, also empty ones,
are truthy, and `junk` stands for a truthy non-array. -/
def slotTruthy : MetaSlot → Bool
  | .absent => false
  | .junk => true
  | .list _ => true

/-- Decimal digits of an index key. -/
def parseDigits (cs : List Char) : Option Nat :=
  match cs with
  | [] => none
  | _ => cs.foldl
      (fun acc c => acc.bind (fun n =>
        if 48 ≤ c.toNat ∧ c.toNat ≤ 57 then some (n * 10 + (c.toNat - 48))
        else none))
      (some 0)

/-- `parseInt(characterIdStr)` on the index keys.  The keys are the
canonical `characterId.toString()` outputs, an optional minus followed
by digits, on which this agrees with `parseInt`; any other string is
`NaN`, modelled as `none`. -/
def parseIntKey (s : String) : Option Int :=
  match s.data with
  | '-' :: cs => (parseDigits cs).map (fun n => -(n : Int))
  | cs => (parseDigits cs).map (fun n => (n : Int))

/-- `context.characters[i]` for a parsed index `i`. -/
def charAt (characters : List (Option Character)) (i : Int) :
    Option Character :=
  match i with
  | .ofNat n => (characters.get? n).bind id
  | .negSucc _ => none

/-- State threaded through `deleteAllBookmarksFromAllCharacters`. -/
structure EraseAcc where
  store : Store
  deletedCharacters : Nat
  deletedChats : Nat
  totalErrors : Nat
deriving DecidableEq

/-- What the bulk eraser reports, plus the final state. -/
structure EraseResult where
  store : Store
  deletedCharacters : Nat
  deletedChats : Nat
  totalErrors : Nat
deriving DecidableEq

/-- One chat entry of the erase loop (part_001 lines 191-274): the
active chat is cleared in memory and saved through the normal path;
any other chat is fetched remotely — a failed fetch or empty response
counts one error; a non-object first element is skipped silently; a
chat whose metadata holds a truthy bookmark value has the key deleted
and is written back, a failed write counting one error. -/
def eraseChatStep (now : String) (env : RemoteEnv) (cid? : Option Int)
    (chid? : Option String) (charIdx : Int) (char : Character)
    (acc : EraseAcc) (chatId : String) : EraseAcc :=
  if some charIdx = cid? ∧ some chatId = chid? then
    { acc with
      store := saveBookmarks now { acc.store with bookmarks := [] },
      deletedChats := acc.deletedChats + 1 }
  else
    match env.fetchChat char.name (stripJsonl chatId) with
    | .fail => { acc with totalErrors := acc.totalErrors + 1 }
    | .notArrayOrEmpty => { acc with totalErrors := acc.totalErrors + 1 }
    | .firstNotObject => acc
    | .chat slot =>
        if slotTruthy slot then
          if env.saveOk char.name (stripJsonl chatId) then
            { acc with deletedChats := acc.deletedChats + 1 }
          else { acc with totalErrors := acc.totalErrors + 1 }
        else acc

/-- One character entry of the erase loop: an unresolvable character
(bad key, missing entry, or falsy name/avatar) is skipped without an
error; otherwise all its snapshot chats are processed and
`deletedCharacters` is bumped. -/
def eraseCharStep (now : String) (env : RemoteEnv) (cid? : Option Int)
    (chid? : Option String) (characters : List (Option Character))
    (acc : EraseAcc) (entry : String × StrMap IndexEntry) : EraseAcc :=
  match parseIntKey entry.1 with
  | none => acc
  | some i =>
      match charAt characters i with
      | none => acc
      | some char =>
          let acc' := entry.2.foldl
            (fun a (p : String × IndexEntry) =>
              eraseChatStep now env cid? chid? i char a p.1) acc
          { acc' with deletedCharacters := acc'.deletedCharacters + 1 }

/-- The post-confirmation body of
`deleteAllBookmarksFromAllCharacters()` (part_001 lines 140-306).
Returns `none` on the early `캐릭터 목록을 찾을 수 없습니다` exit (no
reset happens there).  Otherwise the index snapshot is walked, then
the whole index is unconditionally reset to `{}` and the in-memory
list reloaded from the (now cleared) metadata. -/
def deleteAllBookmarksFromAllCharacters (now : String) (env : RemoteEnv)
    (s : Store) : Option EraseResult :=
  match s.ctx with
  | none => none
  | some ctx =>
      let acc0 : EraseAcc := ⟨s, 0, 0, 0⟩
      let acc := s.index.foldl
        (eraseCharStep now env ctx.characterId ctx.chatId ctx.characters)
        acc0
      let st := loadBookmarks { acc.store with index := ([] : BookmarkIndex) }
      some ⟨st, acc.deletedCharacters, acc.deletedChats, acc.totalErrors⟩

/-- The error contribution of one non-current chat entry, matching
`eraseChatStep` case by case. -/
def chatErrorCount (env : RemoteEnv) (cid? : Option Int)
    (chid? : Option String) (charIdx : Int) (char : Character)
    (chatId : String) : Nat :=
  if some charIdx = cid? ∧ some chatId = chid? then 0
  else
    match env.fetchChat char.name (stripJsonl chatId) with
    | .fail => 1
    | .notArrayOrEmpty => 1
    | .firstNotObject => 0
    | .chat slot =>
        if slotTruthy slot then
          if env.saveOk char.name (stripJsonl chatId) then 0 else 1
        else 0

/-- The error contribution of one character entry of the snapshot. -/
def charErrorCount (env : RemoteEnv) (cid? : Option Int)
    (chid? : Option String) (characters : List (Option Character))
    (entry : String × StrMap IndexEntry) : Nat :=
  match parseIntKey entry.1 with
  | none => 0
  | some i =>
      match charAt characters i with
      | none => 0
      | some char =>
          (entry.2.map
            (fun p => chatErrorCount env cid? chid? i char p.1)).sum

/-- Total error count the snapshot walk must report. -/
def snapshotErrorCount (env : RemoteEnv) (cid? : Option Int)
    (chid? : Option String) (characters : List (Option Character))
    (idx : BookmarkIndex) : Nat :=
  (idx.map (charErrorCount env cid? chid? characters)).sum

/-! ## Helper lemmas -/

theorem StrMap.set_ne_nil {β : Type} (m : StrMap β) (k : String) (v : β) :
    m.set k v ≠ [] := by
  cases m with
  | nil => simp [StrMap.set]
  | cons p rest =>
    obtain ⟨k₀, v₀⟩ := p
    by_cases h : k₀ = k <;> simp [StrMap.set, h]

theorem saveBookmarks_bookmarks (now : String) (s : Store) :
    (saveBookmarks now s).bookmarks = s.bookmarks := by
  cases h : s.ctx <;> simp [saveBookmarks, h]

theorem saveBookmarks_migration (now : String) (s : Store) :
    (saveBookmarks now s).migrationCompleted = s.migrationCompleted
    ∧ (saveBookmarks now s).legacy = s.legacy := by
  cases h : s.ctx <;> simp [saveBookmarks, h]

theorem migrateOldBookmarks_legacy (s : Store) :
    (migrateOldBookmarks s).legacy = s.legacy := by
  unfold migrateOldBookmarks
  by_cases h : s.migrationCompleted
  · simp [h]
  · cases hl : s.legacy with
    | none => simp [h, hl]
    | some p =>
      cases p with
      | malformed => simp [h, hl]
      | notArray => simp [h, hl]
      | arr bs =>
        by_cases hbs : bs.isEmpty
        · simp [h, hl, hbs]
        · cases hc : s.ctx with
          | none => simp [h, hl, hbs, hc]
          | some c =>
            by_cases hp : metaSlotVacant c.chatMetadata <;>
              simp [h, hl, hbs, hc, hp]

theorem migrateOldBookmarks_index (s : Store) :
    (migrateOldBookmarks s).index = s.index := by
  unfold migrateOldBookmarks
  by_cases h : s.migrationCompleted
  · simp [h]
  · cases hl : s.legacy with
    | none => simp [h, hl]
    | some p =>
      cases p with
      | malformed => simp [h, hl]
      | notArray => simp [h, hl]
      | arr bs =>
        by_cases hbs : bs.isEmpty
        · simp [h, hl, hbs]
        · cases hc : s.ctx with
          | none => simp [h, hl, hbs, hc]
          | some c =>
            by_cases hp : metaSlotVacant c.chatMetadata <;>
              simp [h, hl, hbs, hc, hp]

theorem migrateOldBookmarks_bookmarks (s : Store) :
    (migrateOldBookmarks s).bookmarks = s.bookmarks := by
  unfold migrateOldBookmarks
  by_cases h : s.migrationCompleted
  · simp [h]
  · cases hl : s.legacy with
    | none => simp [h, hl]
    | some p =>
      cases p with
      | malformed => simp [h, hl]
      | notArray => simp [h, hl]
      | arr bs =>
        by_cases hbs : bs.isEmpty
        · simp [h, hl, hbs]
        · cases hc : s.ctx with
          | none => simp [h, hl, hbs, hc]
          | some c =>
            by_cases hp : metaSlotVacant c.chatMetadata <;>
              simp [h, hl, hbs, hc, hp]

theorem loadBookmarks_index (s : Store) :
    (loadBookmarks s).index = s.index := by
  unfold loadBookmarks
  split
  · simp
  · split
    · simpa using migrateOldBookmarks_index s
    · split <;> simpa using migrateOldBookmarks_index s

theorem loadBookmarks_legacy (s : Store) :
    (loadBookmarks s).legacy = s.legacy := by
  unfold loadBookmarks
  split
  · simp
  · split
    · simpa using migrateOldBookmarks_legacy s
    · split <;> simpa using migrateOldBookmarks_legacy s

/-! ## The index invariant (claim C2) -/

/-- Well-formedness of the bookmark index: no character key maps to an
empty chat map, and every stored entry has a positive count. -/
def IndexWf (idx : BookmarkIndex) : Prop :=
  ∀ ck m, idx.find? ck = some m →
    m ≠ [] ∧ ∀ chk e, m.find? chk = some e → 0 < e.count

/-- A sequence of `updateBookmarkIndex` calls, each with its own
timestamp, characterId, chatId, and count. -/
def applyIndexCalls
    (calls : List (String × Option Int × Option String × Int))
    (idx : BookmarkIndex) : BookmarkIndex :=
  calls.foldl
    (fun i call => updateBookmarkIndex call.1 i call.2.1 call.2.2.1 call.2.2.2)
    idx

theorem updateBookmarkIndex_wf (now : String) (idx : BookmarkIndex)
    (cid? : Option Int) (chid? : Option String) (count : Int)
    (hwf : IndexWf idx) :
    IndexWf (updateBookmarkIndex now idx cid? chid? count) := by
  match cid?, chid? with
  | none, _ => simpa [updateBookmarkIndex] using hwf
  | some cid, none => simpa [updateBookmarkIndex] using hwf
  | some cid, some chid =>
    by_cases hcnt : 0 < count
    · intro ck m hm
      simp only [updateBookmarkIndex, if_pos hcnt] at hm
      by_cases hck : ck = charKey cid
      · subst hck
        rw [StrMap.find?_set_self] at hm
        cases hm
        refine ⟨StrMap.set_ne_nil _ _ _, ?_⟩
        intro chk e he
        by_cases hchk : chk = chid
        · subst hchk
          rw [StrMap.find?_set_self] at he
          cases he
          exact hcnt
        · rw [StrMap.find?_set_ne _ _ _ _ hchk] at he
          cases hfind : StrMap.find? idx (charKey cid) with
          | none => rw [hfind] at he; simp [StrMap.find?] at he
          | some m₀ =>
            rw [hfind] at he
            exact (hwf _ _ hfind).2 chk e he
      · rw [StrMap.find?_set_ne _ _ _ _ hck] at hm
        exact hwf ck m hm
    · intro ck m hm
      simp only [updateBookmarkIndex, if_neg hcnt] at hm
      by_cases hemp :
          (((idx.find? (charKey cid)).getD []).erase chid).isEmpty = true
      · rw [if_pos hemp] at hm
        by_cases hck : ck = charKey cid
        · subst hck
          rw [StrMap.find?_erase_self] at hm
          cases hm
        · rw [StrMap.find?_erase_ne _ _ _ hck] at hm
          exact hwf ck m hm
      · rw [if_neg hemp] at hm
        by_cases hck : ck = charKey cid
        · subst hck
          rw [StrMap.find?_set_self] at hm
          cases hm
          constructor
          · intro hnil
            rw [hnil] at hemp
            simp [StrMap.isEmpty] at hemp
          · intro chk e he
            by_cases hchk : chk = chid
            · subst hchk
              rw [StrMap.find?_erase_self] at he
              cases he
            · rw [StrMap.find?_erase_ne _ _ _ hchk] at he
              cases hfind : StrMap.find? idx (charKey cid) with
              | none => rw [hfind] at he; simp [StrMap.find?] at he
              | some m₀ =>
                rw [hfind] at he
                exact (hwf _ _ hfind).2 chk e he
        · rw [StrMap.find?_set_ne _ _ _ _ hck] at hm
          exact hwf ck m hm

/-- Claim C2: for every sequence of `updateBookmarkIndex` calls with
arbitrary arguments, the index never holds a chat entry with a
non-positive count and never holds a character key with an empty chat
map; moreover a call with count 0 removes the chat entry, and removes
the character key too when its chat map becomes empty. -/
theorem bookmarkIndex_never_empty_or_zero :
    (∀ (calls : List (String × Option Int × Option String × Int))
       (idx : BookmarkIndex), IndexWf idx →
       IndexWf (applyIndexCalls calls idx))
    ∧ (∀ (now : String) (idx : BookmarkIndex) (cid : Int) (chid : String),
        indexFind (updateBookmarkIndex now idx (some cid) (some chid) 0)
          cid chid = none
        ∧ (((idx.find? (charKey cid)).getD []).erase chid = [] →
            (updateBookmarkIndex now idx (some cid) (some chid) 0).find?
              (charKey cid) = none)) := by
  constructor
  · intro calls
    induction calls with
    | nil => intro idx h; exact h
    | cons call rest ih =>
      intro idx h
      exact ih _ (updateBookmarkIndex_wf call.1 idx call.2.1 call.2.2.1
        call.2.2.2 h)
  · intro now idx cid chid
    have hcnt : ¬ (0 : Int) < 0 := by norm_num
    constructor
    · by_cases hemp :
          (((idx.find? (charKey cid)).getD []).erase chid).isEmpty = true
      · simp only [updateBookmarkIndex, if_neg hcnt, if_pos hemp, indexFind]
        rw [StrMap.find?_erase_self]
        rfl
      · simp only [updateBookmarkIndex, if_neg hcnt, if_neg hemp, indexFind]
        rw [StrMap.find?_set_self]
        simp [StrMap.find?_erase_self]
    · intro hnil
      have hemp :
          (((idx.find? (charKey cid)).getD []).erase chid).isEmpty = true := by
        rw [hnil]; rfl
      simp only [updateBookmarkIndex, if_neg hcnt, if_pos hemp]
      exact StrMap.find?_erase_self _ _

/-- Witness for C2: a concrete call sequence from the empty index. -/
theorem bookmarkIndex_never_empty_or_zero_witness :
    IndexWf (applyIndexCalls
      [("t1", some 0, some "a", 2), ("t2", some 0, some "b", 1),
       ("t3", some 0, some "a", 0), ("t4", some 1, some "c", 0)]
      ([] : BookmarkIndex)) :=
  bookmarkIndex_never_empty_or_zero.1 _ ([] : BookmarkIndex)
    (fun ck m hm => by simp [StrMap.find?] at hm)

/-! ## Save keeps the index consistent (claim C1) -/

/-- Claim C1: after `saveBookmarks()` with an active chat, the index
entry of the active `(characterId, chatId)` carries exactly the
in-memory list's length; when the list is empty the chat entry is
absent, and if no other chat of that character was indexed the
character key is absent too. -/
theorem saveBookmarks_index_consistent (now : String) (s : Store)
    (c : Ctx) (cid : Int) (chid : String)
    (hctx : s.ctx = some c) (hcid : c.characterId = some cid)
    (hchid : c.chatId = some chid) :
    (s.bookmarks ≠ [] →
      indexFind (saveBookmarks now s).index cid chid
        = some ⟨(s.bookmarks.length : Int), now⟩)
    ∧ (s.bookmarks = [] →
        indexFind (saveBookmarks now s).index cid chid = none
        ∧ ((∀ ch', ch' ≠ chid → indexFind s.index cid ch' = none) →
            (saveBookmarks now s).index.find? (charKey cid) = none)) := by
  have hidx : (saveBookmarks now s).index
      = updateBookmarkIndex now s.index (some cid) (some chid)
          (s.bookmarks.length : Int) := by
    simp [saveBookmarks, hctx, hcid, hchid]
  constructor
  · intro hne
    have hlen : 0 < (s.bookmarks.length : Int) := by
      have : 0 < s.bookmarks.length := List.length_pos.mpr hne
      exact_mod_cast this
    rw [hidx]
    simp only [updateBookmarkIndex, if_pos hlen, indexFind]
    rw [StrMap.find?_set_self]
    simp [StrMap.find?_set_self]
  · intro hnil
    have hlen : ¬ 0 < (s.bookmarks.length : Int) := by
      rw [hnil]; norm_num
    constructor
    · rw [hidx]
      by_cases hemp :
          (((s.index.find? (charKey cid)).getD []).erase chid).isEmpty = true
      · simp only [updateBookmarkIndex, if_neg hlen, if_pos hemp, indexFind]
        rw [StrMap.find?_erase_self]
        rfl
      · simp only [updateBookmarkIndex, if_neg hlen, if_neg hemp, indexFind]
        rw [StrMap.find?_set_self]
        simp [StrMap.find?_erase_self]
    · intro honly
      have hemp :
          ((s.index.find? (charKey cid)).getD []).erase chid = [] := by
        apply StrMap.erase_eq_nil_of_only_key
        intro k' hk'
        have h := honly k' hk'
        unfold indexFind at h
        cases hfind : StrMap.find? s.index (charKey cid) with
        | none => simp [hfind, StrMap.find?]
        | some m₀ =>
          rw [hfind] at h
          simpa [hfind] using h
      have hemp' :
          (((s.index.find? (charKey cid)).getD []).erase chid).isEmpty
            = true := by
        rw [hemp]; rfl
      rw [hidx]
      simp only [updateBookmarkIndex, if_neg hlen, if_pos hemp']
      exact StrMap.find?_erase_self _ _

/-- A concrete active-chat context used by witnesses. -/
def wCtx : Ctx :=
  { characterId := some 0, chatId := some "chat1",
    characters := [], chatMetadata := MetaSlot.absent }

/-- A concrete store holding one bookmark in the active chat. -/
def wStoreOne : Store :=
  { migrationCompleted := true, legacy := none, ctx := some wCtx,
    bookmarks := [⟨"u1", 4, "A", "", "T0"⟩], index := [] }

/-- A concrete store with an empty in-memory list whose chat is the
character's only indexed chat. -/
def wStoreEmpty : Store :=
  { migrationCompleted := true, legacy := none, ctx := some wCtx,
    bookmarks := [], index := [("0", [("chat1", ⟨1, "T0"⟩)])] }

/-- Witness for C1 at a concrete store, exercising both the non-empty
and the empty branch. -/
theorem saveBookmarks_index_consistent_witness :
    indexFind (saveBookmarks "T" wStoreOne).index 0 "chat1"
      = some ⟨1, "T"⟩
    ∧ (saveBookmarks "T" wStoreEmpty).index.find? (charKey 0) = none := by
  constructor
  · exact (saveBookmarks_index_consistent "T" wStoreOne wCtx 0 "chat1"
      rfl rfl rfl).1 (by simp [wStoreOne])
  · exact ((saveBookmarks_index_consistent "T" wStoreEmpty wCtx 0 "chat1"
      rfl rfl rfl).2 rfl).2
      (fun ch' hch' => by
        simp only [wStoreEmpty, indexFind, charKey]
        simp [StrMap.find?, hch', Ne.symm hch'])

/-! ## Import format detection (claim C5) -/

/-- A payload carrying an explicit non-legacy version marker together
with a top-level `bookmarks` array. -/
def versionedFlatPayload : ImportData :=
  { version := some "3.0", bookmarks := JsField.arr,
    chatBookmarks := JsField.missing, characterBookmarks := JsField.arr }

/-- Counterexample to C5 as stated: a payload with `version: "3.0"`
and a top-level `bookmarks` array is dispatched to the legacy branch,
although it is not unversioned — the v1 test only excludes
`version === '2.0'`. -/
theorem detectFormat_versioned_payload_is_legacy :
    detectFormat versionedFlatPayload = ImportFormat.legacy
    ∧ versionedFlatPayload.version ≠ none := by
  constructor
  · rfl
  · simp [versionedFlatPayload]

/-- C5 as the code has it: a payload is treated as the legacy flat
form exactly when it carries a (truthy) top-level `bookmarks` array
and its version marker is anything but `'2.0'` — including absent, and
including an explicit `'3.0'`. -/
theorem detectFormat_legacy_iff (d : ImportData) :
    detectFormat d = ImportFormat.legacy ↔
      (isTruthyArray d.bookmarks = true ∧ d.version ≠ some "2.0") := by
  simp only [detectFormat]
  split_ifs with h1 h2 h3 <;> simp_all

/-! ## Legacy import merge (claim C4) -/

/-- Claim C4: a one-record v1 import against the current list — a
record whose `(messageId, name)` pair already occurs is counted as a
duplicate and the list is unchanged; a record sharing only the
`messageId` (every same-message record has a different name) is
imported: both counters, the length, and the freshly re-identified
record are as the claim states, the new id being `gen c`, distinct
from the payload's own id whenever the uuid supply avoids it. -/
theorem importLegacyBookmarks_dedup (gen : Nat → String) (now : String)
    (s : Store) (c : Nat) (ib : Bookmark)
    (hsorted : List.Sorted bmLE s.bookmarks) :
    ((∃ e ∈ s.bookmarks, e.messageId = ib.messageId ∧ e.name = ib.name) →
      (importLegacyBookmarks gen now [ib] s c).duplicatedCount = 1
      ∧ (importLegacyBookmarks gen now [ib] s c).importedCount = 0
      ∧ (importLegacyBookmarks gen now [ib] s c).store.bookmarks
          = s.bookmarks)
    ∧ ((∀ e ∈ s.bookmarks, e.messageId = ib.messageId → e.name ≠ ib.name) →
      (importLegacyBookmarks gen now [ib] s c).importedCount = 1
      ∧ (importLegacyBookmarks gen now [ib] s c).duplicatedCount = 0
      ∧ (importLegacyBookmarks gen now [ib] s c).store.bookmarks.length
          = s.bookmarks.length + 1
      ∧ { ib with id := gen c } ∈
          (importLegacyBookmarks gen now [ib] s c).store.bookmarks
      ∧ (gen c ≠ ib.id →
          ∃ b ∈ (importLegacyBookmarks gen now [ib] s c).store.bookmarks,
            b.messageId = ib.messageId ∧ b.name = ib.name ∧ b.id ≠ ib.id)) := by
  constructor
  · rintro ⟨e, he, hm, hn⟩
    have hany : s.bookmarks.any
        (fun e => e.messageId == ib.messageId && e.name == ib.name) = true :=
      List.any_eq_true.mpr ⟨e, he, by simp [hm, hn]⟩
    refine ⟨?_, ?_, ?_⟩
    · simp [importLegacyBookmarks, mergeIntoList, mergeStep, hany]
    · simp [importLegacyBookmarks, mergeIntoList, mergeStep, hany]
    · simp only [importLegacyBookmarks, mergeIntoList, List.foldl,
        mergeStep, hany, if_pos, saveBookmarks_bookmarks]
      exact hsorted.insertionSort_eq
  · intro hnone
    have hany : s.bookmarks.any
        (fun e => e.messageId == ib.messageId && e.name == ib.name) = false := by
      rw [List.any_eq_false]
      intro e he
      simp only [Bool.and_eq_true, beq_iff_eq, not_and]
      exact hnone e he
    have hbm : (importLegacyBookmarks gen now [ib] s c).store.bookmarks
        = sortByMessageId (s.bookmarks ++ [{ ib with id := gen c }]) := by
      simp [importLegacyBookmarks, mergeIntoList, mergeStep, hany,
        saveBookmarks_bookmarks]
    refine ⟨?_, ?_, ?_, ?_, ?_⟩
    · simp [importLegacyBookmarks, mergeIntoList, mergeStep, hany]
    · simp [importLegacyBookmarks, mergeIntoList, mergeStep, hany]
    · rw [hbm]
      simp [sortByMessageId]
    · rw [hbm]
      simp [sortByMessageId]
    · intro hfresh
      refine ⟨{ ib with id := gen c }, ?_, rfl, rfl, hfresh⟩
      rw [hbm]
      simp [sortByMessageId]

/-- Witness for C4 at concrete records: a duplicate `(3, "X")` import
and a same-message different-name `(3, "X")` against `(3, "Y")`. -/
theorem importLegacyBookmarks_dedup_witness :
    (importLegacyBookmarks (fun n => "u" ++ toString n) "T"
      [⟨"src", 3, "X", "", "T0"⟩]
      { wStoreOne with bookmarks := [⟨"a", 3, "X", "", "T0"⟩] }
      0).duplicatedCount = 1
    ∧ (importLegacyBookmarks (fun n => "u" ++ toString n) "T"
      [⟨"src", 3, "X", "", "T0"⟩]
      { wStoreOne with bookmarks := [⟨"a", 3, "Y", "", "T0"⟩] }
      0).importedCount = 1 := by
  constructor
  · exact ((importLegacyBookmarks_dedup (fun n => "u" ++ toString n) "T"
      { wStoreOne with bookmarks := [⟨"a", 3, "X", "", "T0"⟩] } 0
      ⟨"src", 3, "X", "", "T0"⟩ (by simp [List.Sorted])).1
      ⟨⟨"a", 3, "X", "", "T0"⟩, by simp, rfl, rfl⟩).1
  · exact ((importLegacyBookmarks_dedup (fun n => "u" ++ toString n) "T"
      { wStoreOne with bookmarks := [⟨"a", 3, "Y", "", "T0"⟩] } 0
      ⟨"src", 3, "X", "", "T0"⟩ (by simp [List.Sorted])).2
      (by intro e he hm; simp at he; subst he; simp)).1

/-! ## No messageId uniqueness on add (claim C9) -/

/-- `addBookmark(5, "A", "")` followed by `addBookmark(5, "B", "")` on
the same chat. -/
def addFiveAThenFiveB (gen : Nat → String) (now1 now2 : String)
    (s : Store) (c : Nat) : Store × Nat :=
  addBookmark gen now2 5 "B" ""
    (addBookmark gen now1 5 "A" "" s c).1
    (addBookmark gen now1 5 "A" "" s c).2

/-- Claim C9: `add` checks no uniqueness of `messageId` — adding
`(5, "A")` then `(5, "B")` leaves two distinct records in the list,
both with `messageId` 5, with different names and different freshly
generated ids, and grows the list by exactly two. -/
theorem addBookmark_no_messageId_uniqueness (gen : Nat → String)
    (now1 now2 : String) (s : Store) (c : Nat)
    (hfresh : gen c ≠ gen (c + 1)) :
    mkBookmark gen c now1 5 "A" ""
        ∈ (addFiveAThenFiveB gen now1 now2 s c).1.bookmarks
    ∧ mkBookmark gen (c + 1) now2 5 "B" ""
        ∈ (addFiveAThenFiveB gen now1 now2 s c).1.bookmarks
    ∧ mkBookmark gen c now1 5 "A" "" ≠ mkBookmark gen (c + 1) now2 5 "B" ""
    ∧ (mkBookmark gen c now1 5 "A" "").id
        ≠ (mkBookmark gen (c + 1) now2 5 "B" "").id
    ∧ (mkBookmark gen c now1 5 "A" "").messageId
        = (mkBookmark gen (c + 1) now2 5 "B" "").messageId
    ∧ (mkBookmark gen c now1 5 "A" "").name
        ≠ (mkBookmark gen (c + 1) now2 5 "B" "").name
    ∧ (addFiveAThenFiveB gen now1 now2 s c).1.bookmarks.length
        = s.bookmarks.length + 2 := by
  have h1 : (addBookmark gen now1 5 "A" "" s c).1.bookmarks
      = sortByMessageId (s.bookmarks ++ [mkBookmark gen c now1 5 "A" ""]) := by
    simp [addBookmark, saveBookmarks_bookmarks]
  have h2c : (addBookmark gen now1 5 "A" "" s c).2 = c + 1 := rfl
  have h2 : (addFiveAThenFiveB gen now1 now2 s c).1.bookmarks
      = sortByMessageId ((addBookmark gen now1 5 "A" "" s c).1.bookmarks
          ++ [mkBookmark gen (c + 1) now2 5 "B" ""]) := by
    simp [addFiveAThenFiveB, addBookmark, saveBookmarks_bookmarks, h2c]
  refine ⟨?_, ?_, ?_, hfresh, rfl, ?_, ?_⟩
  · rw [h2]
    simp only [sortByMessageId, List.mem_insertionSort, List.mem_append]
    left
    rw [h1]
    simp [sortByMessageId]
  · rw [h2]
    simp [sortByMessageId]
  · intro h
    have := congrArg Bookmark.name h
    simp [mkBookmark] at this
  · intro h
    simp [mkBookmark] at h
  · rw [h2]
    simp only [sortByMessageId, List.length_insertionSort,
      List.length_append, List.length_singleton]
    rw [h1]
    simp [sortByMessageId]

/-- Witness for C9 with an injective concrete uuid supply. -/
theorem addBookmark_no_messageId_uniqueness_witness :
    mkBookmark (fun n => "u" ++ toString n) 0 "T1" 5 "A" ""
      ∈ (addFiveAThenFiveB (fun n => "u" ++ toString n) "T1" "T2"
          wStoreOne 0).1.bookmarks :=
  (addBookmark_no_messageId_uniqueness (fun n => "u" ++ toString n)
    "T1" "T2" wStoreOne 0 (by decide)).1

/-! ## Sortedness invariant (claim C3) -/

theorem editList_map_messageId (i n d : String) (l : List Bookmark) :
    (editList i n d l).map Bookmark.messageId = l.map Bookmark.messageId := by
  induction l with
  | nil => rfl
  | cons b rest ih => by_cases h : b.id = i <;> simp [editList, h, ih]

theorem sorted_iff_map_sorted (l : List Bookmark) :
    List.Sorted bmLE l ↔
      List.Sorted (· ≤ ·) (l.map Bookmark.messageId) := by
  unfold List.Sorted bmLE
  exact (List.pairwise_map).symm

theorem removeFirst_sublist (i : String) (l : List Bookmark) :
    (removeFirst i l).Sublist l := by
  induction l with
  | nil => simp [removeFirst]
  | cons b rest ih =>
    by_cases h : b.id = i
    · simp only [removeFirst, if_pos h]
      exact (List.Sublist.refl rest).cons b
    · simp only [removeFirst, if_neg h]
      exact ih.cons₂ b

theorem applyOp_sorted (gen : Nat → String) (now : String)
    (s : Store) (c : Nat) (op : BmOp)
    (h : List.Sorted bmLE s.bookmarks) :
    List.Sorted bmLE ((applyOp gen (fun _ => now) (s, c) op).1.bookmarks) := by
  cases op with
  | add m n d =>
    simp only [applyOp, addBookmark, saveBookmarks_bookmarks]
    exact List.sorted_insertionSort bmLE _
  | edit i n d =>
    simp only [applyOp, editBookmark]
    by_cases hc : s.bookmarks.any (fun b => b.id = i) = true
    · rw [if_pos hc]
      rw [saveBookmarks_bookmarks]
      rw [sorted_iff_map_sorted, editList_map_messageId,
        ← sorted_iff_map_sorted]
      exact h
    · rw [if_neg hc]
      exact h
  | remove i =>
    simp only [applyOp, deleteBookmark]
    by_cases hc : s.bookmarks.any (fun b => b.id = i) = true
    · rw [if_pos hc]
      rw [saveBookmarks_bookmarks]
      exact List.Pairwise.sublist (removeFirst_sublist i s.bookmarks) h
    · rw [if_neg hc]
      exact h

/-- Claim C3: starting from a sorted list, the in-memory list is
sorted ascending by `messageId` after every sequence of add, edit, and
remove operations (so in particular after every single operation:
prefixes are themselves sequences). -/
theorem bookmarkList_sorted_after_ops (gen : Nat → String)
    (now : Nat → String) (ops : List BmOp) (s : Store) (c : Nat)
    (h : List.Sorted bmLE s.bookmarks) :
    List.Sorted bmLE ((applyOps gen now ops (s, c)).1.bookmarks) := by
  unfold applyOps
  induction ops generalizing s c with
  | nil => exact h
  | cons op rest ih =>
    rw [List.foldl_cons]
    have hstep : List.Sorted bmLE
        ((applyOp gen now (s, c) op).1.bookmarks) := by
      cases op with
      | add m n d =>
        simpa using applyOp_sorted gen (now c) s c (.add m n d) h
      | edit i n d =>
        simpa using applyOp_sorted gen (now c) s c (.edit i n d) h
      | remove i =>
        simpa using applyOp_sorted gen (now c) s c (.remove i) h
    have : applyOp gen now (s, c) op
        = ((applyOp gen now (s, c) op).1, (applyOp gen now (s, c) op).2) := rfl
    rw [this]
    exact ih _ _ hstep

/-- Witness for C3: a concrete add/add/edit/remove run from the empty
list. -/
theorem bookmarkList_sorted_after_ops_witness :
    List.Sorted bmLE ((applyOps (fun n => "u" ++ toString n)
      (fun n => "t" ++ toString n)
      [BmOp.add 7 "B" "", BmOp.add 2 "A" "", BmOp.edit "u0" "B2" "x",
       BmOp.remove "u1"]
      ({ wStoreOne with bookmarks := [] }, 0)).1.bookmarks) :=
  bookmarkList_sorted_after_ops _ _ _ _ 0 (by simp)

/-! ## Migration (claims C7 and C10) -/

theorem migrateOldBookmarks_completed (t : Store)
    (h : t.migrationCompleted = true) : migrateOldBookmarks t = t := by
  simp [migrateOldBookmarks, h]

theorem migrateOldBookmarks_copies (s : Store) (c : Ctx)
    (bs : List Bookmark) (hflag : s.migrationCompleted = false)
    (hleg : s.legacy = some (LegacyPayload.arr bs)) (hne : bs ≠ [])
    (hctx : s.ctx = some c)
    (hvac : metaSlotVacant c.chatMetadata = true) :
    migrateOldBookmarks s =
      { s with ctx := some { c with chatMetadata := MetaSlot.list bs },
               migrationCompleted := true } := by
  have hbs : bs.isEmpty = false := by
    cases bs with
    | nil => exact absurd rfl hne
    | cons _ _ => rfl
  simp [migrateOldBookmarks, hflag, hleg, hbs, hctx, hvac]

theorem loadBookmarks_of_list (t : Store) (c : Ctx) (bs : List Bookmark)
    (hflag : t.migrationCompleted = true) (hctx : t.ctx = some c)
    (hslot : c.chatMetadata = MetaSlot.list bs) :
    loadBookmarks t = { t with bookmarks := bs } := by
  simp [loadBookmarks, hctx, migrateOldBookmarks_completed t hflag, hslot]

/-- Claim C7: with legacy data present and the current chat's slot
vacant, `load()` copies the legacy array into the chat and sets the
completion flag; afterwards any further `load()` copies nothing more,
no matter how the legacy slot is changed in the meantime, and no
operation ever writes the legacy blob itself. -/
theorem migration_fires_at_most_once (s : Store) (c : Ctx)
    (bs : List Bookmark) (hflag : s.migrationCompleted = false)
    (hleg : s.legacy = some (LegacyPayload.arr bs)) (hne : bs ≠ [])
    (hctx : s.ctx = some c)
    (hvac : metaSlotVacant c.chatMetadata = true) :
    ((loadBookmarks s).bookmarks = bs
      ∧ (loadBookmarks s).ctx
          = some { c with chatMetadata := MetaSlot.list bs }
      ∧ (loadBookmarks s).migrationCompleted = true
      ∧ (loadBookmarks s).legacy = s.legacy)
    ∧ (∀ l' : Option LegacyPayload,
        (loadBookmarks { loadBookmarks s with legacy := l' }).ctx
            = (loadBookmarks s).ctx
        ∧ (loadBookmarks { loadBookmarks s with legacy := l' }).bookmarks
            = bs)
    ∧ (∀ t : Store, (migrateOldBookmarks t).legacy = t.legacy
        ∧ (loadBookmarks t).legacy = t.legacy) := by
  have hmig := migrateOldBookmarks_copies s c bs hflag hleg hne hctx hvac
  have hload : loadBookmarks s =
      { s with ctx := some { c with chatMetadata := MetaSlot.list bs },
               migrationCompleted := true, bookmarks := bs } := by
    simp [loadBookmarks, hctx, hmig]
  refine ⟨?_, ?_, ?_⟩
  · rw [hload]
    exact ⟨rfl, rfl, rfl, rfl⟩
  · intro l'
    have h2 : loadBookmarks { loadBookmarks s with legacy := l' }
        = { loadBookmarks s with legacy := l', bookmarks := bs } := by
      apply loadBookmarks_of_list _
        { c with chatMetadata := MetaSlot.list bs } bs
      · rw [hload]
      · rw [hload]
      · rfl
    rw [h2, hload]
    exact ⟨rfl, rfl⟩
  · intro t
    exact ⟨migrateOldBookmarks_legacy t, loadBookmarks_legacy t⟩

/-- Witness for C7 at a concrete pre-migration store. -/
theorem migration_fires_at_most_once_witness :
    (loadBookmarks
      { migrationCompleted := false,
        legacy := some (LegacyPayload.arr [⟨"L1", 2, "old", "", "T0"⟩]),
        ctx := some wCtx, bookmarks := [], index := [] }).bookmarks
      = [⟨"L1", 2, "old", "", "T0"⟩] :=
  (migration_fires_at_most_once _ wCtx _ rfl rfl (by simp) rfl rfl).1.1

/-- Claim C10: when the legacy blob is not valid JSON, the caught
parse exception makes the migration step a complete no-op — flag not
set, metadata, in-memory list, and legacy blob untouched — so a later
`load()` with a repaired legacy blob still performs the copy. -/
theorem migration_malformed_is_atomic (s : Store)
    (hflag : s.migrationCompleted = false)
    (hleg : s.legacy = some LegacyPayload.malformed) :
    migrateOldBookmarks s = s
    ∧ (∀ (c' : Ctx) (bs : List Bookmark), bs ≠ [] → s.ctx = some c' →
        metaSlotVacant c'.chatMetadata = true →
        (loadBookmarks { s with legacy := some (LegacyPayload.arr bs) }).ctx
            = some { c' with chatMetadata := MetaSlot.list bs }
        ∧ (loadBookmarks
            { s with legacy := some (LegacyPayload.arr bs) }).migrationCompleted
            = true) := by
  constructor
  · simp [migrateOldBookmarks, hflag, hleg]
  · intro c' bs hne hctx hvac
    have hmig := migrateOldBookmarks_copies
      { s with legacy := some (LegacyPayload.arr bs) } c' bs hflag rfl hne
      hctx hvac
    rw [hctx] at hmig
    constructor
    · simp [loadBookmarks, hctx, hmig]
    · simp [loadBookmarks, hctx, hmig]

/-- Witness for C10 at a concrete store with an unparsable legacy
blob. -/
theorem migration_malformed_is_atomic_witness :
    migrateOldBookmarks
      { migrationCompleted := false,
        legacy := some LegacyPayload.malformed,
        ctx := some wCtx, bookmarks := [], index := [] }
      = { migrationCompleted := false,
          legacy := some LegacyPayload.malformed,
          ctx := some wCtx, bookmarks := [], index := [] } :=
  (migration_malformed_is_atomic _ rfl rfl).1

/-! ## Bulk erase (claim C6) -/

theorem eraseChatStep_totalErrors (now : String) (env : RemoteEnv)
    (cid? : Option Int) (chid? : Option String) (i : Int)
    (char : Character) (acc : EraseAcc) (chatId : String) :
    (eraseChatStep now env cid? chid? i char acc chatId).totalErrors
      = acc.totalErrors + chatErrorCount env cid? chid? i char chatId := by
  unfold eraseChatStep chatErrorCount
  by_cases hcur : some i = cid? ∧ some chatId = chid?
  · simp [hcur]
  · rw [if_neg hcur, if_neg hcur]
    cases env.fetchChat char.name (stripJsonl chatId) with
    | fail => simp
    | notArrayOrEmpty => simp
    | firstNotObject => simp
    | chat slot =>
        by_cases ht : slotTruthy slot = true
        · by_cases hs : env.saveOk char.name (stripJsonl chatId) = true <;>
            simp [ht, hs]
        · simp [ht]

theorem eraseChats_totalErrors (now : String) (env : RemoteEnv)
    (cid? : Option Int) (chid? : Option String) (i : Int)
    (char : Character) (ps : List (String × IndexEntry)) (acc : EraseAcc) :
    (ps.foldl (fun a p => eraseChatStep now env cid? chid? i char a p.1)
        acc).totalErrors
      = acc.totalErrors
        + (ps.map (fun p => chatErrorCount env cid? chid? i char p.1)).sum := by
  induction ps generalizing acc with
  | nil => simp
  | cons p rest ih =>
      rw [List.foldl_cons, ih, eraseChatStep_totalErrors]
      simp [Nat.add_assoc]

theorem eraseCharStep_totalErrors (now : String) (env : RemoteEnv)
    (cid? : Option Int) (chid? : Option String)
    (characters : List (Option Character)) (acc : EraseAcc)
    (entry : String × StrMap IndexEntry) :
    (eraseCharStep now env cid? chid? characters acc entry).totalErrors
      = acc.totalErrors
        + charErrorCount env cid? chid? characters entry := by
  unfold eraseCharStep charErrorCount
  cases hi : parseIntKey entry.1 with
  | none => simp
  | some i =>
      cases hc : charAt characters i with
      | none => simp [hc]
      | some char =>
          simp only [hc]
          simpa using eraseChats_totalErrors now env cid? chid?
            i char entry.2 acc

theorem eraseFold_totalErrors (now : String) (env : RemoteEnv)
    (cid? : Option Int) (chid? : Option String)
    (characters : List (Option Character)) (idx : BookmarkIndex)
    (acc : EraseAcc) :
    (idx.foldl (eraseCharStep now env cid? chid? characters) acc).totalErrors
      = acc.totalErrors
        + snapshotErrorCount env cid? chid? characters idx := by
  induction idx generalizing acc with
  | nil => simp [snapshotErrorCount]
  | cons entry rest ih =>
      have hfold : (entry :: rest).foldl
          (eraseCharStep now env cid? chid? characters) acc
          = rest.foldl (eraseCharStep now env cid? chid? characters)
              (eraseCharStep now env cid? chid? characters acc entry) :=
        List.foldl_cons _ _
      rw [hfold, ih, eraseCharStep_totalErrors]
      simp [snapshotErrorCount, Nat.add_assoc]

/-- The C6 scenario: one character with the active chat plus one
remote chat in the index; the remote chat holds a bookmark array but
its write fails. -/
def c6Ctx : Ctx :=
  { characterId := some 0, chatId := some "cur",
    characters := [some ⟨"Alice", "av"⟩],
    chatMetadata := MetaSlot.list [⟨"b1", 1, "M", "", "T0"⟩] }

/-- The C6 scenario store. -/
def c6Store : Store :=
  { migrationCompleted := true, legacy := none, ctx := some c6Ctx,
    bookmarks := [⟨"b1", 1, "M", "", "T0"⟩],
    index := [("0", [("cur", ⟨1, "T0"⟩), ("remote", ⟨1, "T0"⟩)])] }

/-- The C6 scenario storage: fetches succeed with a bookmark-bearing
chat, every write fails. -/
def c6Env : RemoteEnv :=
  { fetchChat := fun _ _ => FetchResult.chat (MetaSlot.list [⟨"b2", 2, "R", "", "T0"⟩]),
    saveOk := fun _ _ => false,
    verifyChat := fun _ _ => FetchResult.fail }

/-- Claim C6: whenever the eraser runs to completion (context with a
character list available), the index ends fully empty no matter how
many per-chat errors occurred, and the reported error total counts
exactly one error per failed remote fetch or failed remote write of
the snapshot walk; in the concrete scenario of the active chat plus
one remote chat whose write fails, the run ends with an empty index
and exactly one error. -/
theorem deleteAll_resets_index_counts_errors :
    (∀ (now : String) (env : RemoteEnv) (s : Store) (ctx : Ctx),
      s.ctx = some ctx →
      ∃ r, deleteAllBookmarksFromAllCharacters now env s = some r
        ∧ r.store.index = ([] : BookmarkIndex)
        ∧ r.totalErrors = snapshotErrorCount env ctx.characterId ctx.chatId
            ctx.characters s.index)
    ∧ (deleteAllBookmarksFromAllCharacters "T1" c6Env c6Store).map
        (fun r => (r.store.index, r.totalErrors)) = some ([], 1) := by
  constructor
  · intro now env s ctx hctx
    simp only [deleteAllBookmarksFromAllCharacters, hctx]
    refine ⟨_, rfl, ?_, ?_⟩
    · rw [loadBookmarks_index]
    · simpa using eraseFold_totalErrors now env ctx.characterId ctx.chatId
        ctx.characters s.index ⟨s, 0, 0, 0⟩
  · rfl

/-- Witness for C6, instantiating the general part at the concrete
scenario. -/
theorem deleteAll_resets_index_counts_errors_witness :
    ∃ r, deleteAllBookmarksFromAllCharacters "T1" c6Env c6Store = some r
      ∧ r.store.index = ([] : BookmarkIndex)
      ∧ r.totalErrors = snapshotErrorCount c6Env c6Ctx.characterId
          c6Ctx.chatId c6Ctx.characters c6Store.index :=
  deleteAll_resets_index_counts_errors.1 "T1" c6Env c6Store c6Ctx rfl

/-! ## Write verification on import (claim C8) -/

theorem v3ProcessChat_fetch_only (gen : Nat → String) (now : String)
    (env1 env2 : RemoteEnv) (h : env1.fetchChat = env2.fetchChat)
    (charIdx : Nat) (char : Character) (cid? : Option Int)
    (chid? : Option String) (acc : V3Acc) (cd : V3Chat) :
    v3ProcessChat gen now env1 charIdx char cid? chid? acc cd
      = v3ProcessChat gen now env2 charIdx char cid? chid? acc cd := by
  unfold v3ProcessChat
  rw [h]

theorem v3ProcessChar_fetch_only (gen : Nat → String) (now : String)
    (env1 env2 : RemoteEnv) (h : env1.fetchChat = env2.fetchChat)
    (characters : List (Option Character)) (cid? : Option Int)
    (chid? : Option String) (acc : V3Acc) (cg : V3CharGroup) :
    v3ProcessChar gen now env1 characters cid? chid? acc cg
      = v3ProcessChar gen now env2 characters cid? chid? acc cg := by
  unfold v3ProcessChar
  cases hf : findCharacterIdx characters cg.characterName with
  | none => simp only [hf]
  | some idx =>
      cases hg : (characters.get? idx).bind id with
      | none => simp only [hf, hg]
      | some ch =>
          have hfn : v3ProcessChat gen now env1 idx ch cid? chid?
              = v3ProcessChat gen now env2 idx ch cid? chid? :=
            funext fun a => funext fun cd =>
              v3ProcessChat_fetch_only gen now env1 env2 h idx ch cid?
                chid? a cd
          simp only [hf, hg, hfn]

/-- The uuid supply of the C8 scenario. -/
def c8Gen : Nat → String := fun n => "uuid-" ++ toString n

/-- The record inside the C8 import file. -/
def c8Ib : Bookmark := ⟨"srcid", 3, "X", "", "T0"⟩

/-- The C8 scenario context: character `A` loaded, chat `cur`
active. -/
def c8Ctx : Ctx :=
  { characterId := some 0, chatId := some "cur",
    characters := [some ⟨"A", "av"⟩], chatMetadata := MetaSlot.absent }

/-- The C8 scenario store. -/
def c8Store : Store :=
  { migrationCompleted := true, legacy := none, ctx := some c8Ctx,
    bookmarks := [], index := [] }

/-- The C8 scenario storage: the target chat `other` fetches with no
bookmarks, the write reports success, but the verification re-read
still sees zero bookmarks — a lossy write. -/
def c8Env : RemoteEnv :=
  { fetchChat := fun _ _ => FetchResult.chat (MetaSlot.list []),
    saveOk := fun _ _ => true,
    verifyChat := fun _ _ => FetchResult.chat (MetaSlot.list []) }

/-- The C8 import payload: one chat `other` of character `A`. -/
def c8Payload : V3CharGroup := ⟨"A", [⟨"chat", "other", [c8Ib]⟩]⟩

/-- Counterexample to C8 as stated: after the remote write, the
verification re-read observes 0 bookmarks while the expected merged
count is 1, yet `importV3ToOriginalLocations` returns a plain success
result — one processed character, one processed chat, one imported
record, nothing not-found, and no error of any kind surfaced to the
caller. -/
theorem importV3_count_mismatch_reports_success :
    fetchedBookmarkCount (c8Env.verifyChat "A" "other") = 0
    ∧ (mergeIntoList c8Gen 0 [c8Ib] []).merged.length = 1
    ∧ importV3ToOriginalLocations c8Gen "T1" c8Env [c8Payload] c8Store 0
        = Except.ok (c8Store, 1, ⟨1, 1, 1, []⟩) := by
  refine ⟨rfl, rfl, ?_⟩
  rfl

/-- C8 amended: the v3 import path does re-read the chat after a
write and compares the persisted count with the expected merged count,
but a mismatch (and equally a failed write) is only logged — the
result handed to the caller is the same whatever the write and
verification oracles report, and with a context available it is always
a success value. -/
theorem importV3_never_surfaces_write_error (gen : Nat → String)
    (now : String) (env : RemoteEnv) (so : String → String → Bool)
    (vf : String → String → FetchResult) (cbs : List V3CharGroup)
    (s : Store) (c : Nat) (ctx : Ctx) (hctx : s.ctx = some ctx) :
    importV3ToOriginalLocations gen now
        { env with saveOk := so, verifyChat := vf } cbs s c
      = importV3ToOriginalLocations gen now env cbs s c
    ∧ ∃ out, importV3ToOriginalLocations gen now env cbs s c
        = Except.ok out := by
  constructor
  · have hfn : v3ProcessChar gen now
        { env with saveOk := so, verifyChat := vf } ctx.characters
          ctx.characterId ctx.chatId
        = v3ProcessChar gen now env ctx.characters ctx.characterId
            ctx.chatId :=
      funext fun a => funext fun cg =>
        v3ProcessChar_fetch_only gen now _ env rfl ctx.characters
          ctx.characterId ctx.chatId a cg
    simp [importV3ToOriginalLocations, hctx, hfn]
  · simp only [importV3ToOriginalLocations, hctx]
    exact ⟨_, rfl⟩

/-- Witness for the amended C8 at the concrete scenario, with the
write and verification oracles replaced by failing ones. -/
theorem importV3_never_surfaces_write_error_witness :
    importV3ToOriginalLocations c8Gen "T1"
        { c8Env with saveOk := fun _ _ => false, verifyChat := fun _ _ => FetchResult.fail }
        [c8Payload] c8Store 0
      = importV3ToOriginalLocations c8Gen "T1" c8Env [c8Payload] c8Store 0 :=
  (importV3_never_surfaces_write_error c8Gen "T1" c8Env
    (fun _ _ => false) (fun _ _ => FetchResult.fail) [c8Payload] c8Store 0
    c8Ctx rfl).1

end BookmarkExt
